import Mathlib

/-!
Verification of the execution-sandbox core: a shallow embedding of
`crates/cheatnet/src/lib.rs` and `crates/forge/src/running.rs`, with the external
collaborators (`SierraCasmRunner`, blockifier, `cairo_vm`) supplied as deterministic
oracle parameters.

Conventions: Rust `u32` values are `Nat` values kept below `2 ^ 32`; `u32` arithmetic
wraps modulo `2 ^ 32` (release-profile semantics — a debug build would abort instead,
which is noted where it matters); a Rust panic (`Option::unwrap` on `None`, slice
indexing out of bounds, `Result::unwrap` on `Err`) is modelled by an `Option` result
being `none`; fallible Rust functions returning `Result`/`anyhow::Result` are modelled
with `Except`.
-/

/-- Width modulus of the Rust `u32` type. -/
def U32_MOD : Nat := 2 ^ 32

/-- Wrapping `u32` subtraction: the release-profile meaning of `a - b` on `u32`
(a debug build aborts when `b > a`). -/
def u32sub (a b : Nat) : Nat := (a + U32_MOD - b % U32_MOD) % U32_MOD

/-- Stand-in for `blockifier`'s `DictStateReader` (external collaborator); only its
identity matters to the claims, so it is a tagged value. -/
structure DictStateReader where
  tag : Nat
deriving DecidableEq

/-- Stand-in for `cheatnet::forking::ForkStateReader` (external to the claims). -/
structure ForkStateReader where
  tag : Nat
deriving DecidableEq

/-- `cheatnet::state::ExtendedStateReader`, with the two fields set at the
`CheatnetState::new` call sites in `crates/forge/src/running.rs`. -/
structure ExtendedStateReader where
  dict_state_reader : DictStateReader
  fork_state_reader : Option ForkStateReader
deriving DecidableEq

/-- `blockifier::state::cached_state::GlobalContractCache::default()`: an empty cache,
modelled as an entry list. -/
def GlobalContractCache.default : List (Nat × Nat) := []

/-- `blockifier::state::cached_state::CachedState` over a state reader `R`: the wrapped
reader plus the class cache it was created with.  Only creation is exercised by the
claims. -/
structure CachedState (R : Type) where
  state : R
  global_class_hash_to_class : List (Nat × Nat)
deriving DecidableEq

/-- `CachedState::new(state, global_class_hash_to_class)`. -/
def CachedState.new {R : Type} (state : R) (global_class_hash_to_class : List (Nat × Nat)) :
    CachedState R :=
  { state := state, global_class_hash_to_class := global_class_hash_to_class }

/-- Modelled from the spec: `CheatcodeState` (`crates/cheatnet/src/state.rs`, not among
the given sources) is the "mutable process-local registry of active cheats", an
insertion-ordered mapping keyed by (scope, cheat-kind).  Scope, kind and cheat payload
are left as numeric identifiers; the claims only inspect whether the registry is empty. -/
structure CheatcodeState where
  cheats : List ((Nat × Nat) × Nat)
deriving DecidableEq

/-- Modelled from the spec: `CheatcodeState::new()` starts with no active cheats
("every test case starts with no active cheats"). -/
def CheatcodeState.new : CheatcodeState := { cheats := [] }

/-- `cheatnet::CheatnetState` (crates/cheatnet/src/lib.rs:15-20). -/
structure CheatnetState where
  cheatcode_state : CheatcodeState
  blockifier_state : CachedState ExtendedStateReader
  deploy_salt_base : Nat
  available_steps : Option Nat
deriving DecidableEq

/-- `CheatnetState::new(state, max_steps)` (crates/cheatnet/src/lib.rs:22-31). -/
def CheatnetState.new (state : ExtendedStateReader) (max_steps : Option Nat) : CheatnetState :=
  { cheatcode_state := CheatcodeState.new
    blockifier_state := CachedState.new state GlobalContractCache.default
    deploy_salt_base := 0
    available_steps := max_steps }

/-- `CheatnetState::increment_deploy_salt_base` (crates/cheatnet/src/lib.rs:33-35):
`self.deploy_salt_base += 1` on a `u32`, so the counter wraps modulo `2 ^ 32`
(a debug build would abort at the wrap point instead). -/
def CheatnetState.increment_deploy_salt_base (s : CheatnetState) : CheatnetState :=
  { s with deploy_salt_base := (s.deploy_salt_base + 1) % U32_MOD }

/-- `starknet_api::transaction::ContractAddressSalt`.  `StarkFelt::from` embeds a `u32`
injectively into the felt type, so the salt is represented by the counter value itself. -/
structure ContractAddressSalt where
  val : Nat
deriving DecidableEq

/-- `CheatnetState::get_salt` (crates/cheatnet/src/lib.rs:37-40):
`ContractAddressSalt(StarkFelt::from(self.deploy_salt_base))`. -/
def CheatnetState.get_salt (s : CheatnetState) : ContractAddressSalt :=
  { val := s.deploy_salt_base }

/-- `CheatnetState::decrease_available_steps` (crates/cheatnet/src/lib.rs:42-44):
`self.available_steps = Some(self.available_steps.unwrap() - used_steps)`.
The result is `none` exactly when `Option::unwrap` panics, i.e. when no step budget is
tracked; the `u32` subtraction itself wraps (release profile — a debug build aborts
when `used_steps` exceeds the remaining budget). -/
def CheatnetState.decrease_available_steps (s : CheatnetState) (used_steps : Nat) :
    Option CheatnetState :=
  match s.available_steps with
  | none => none
  | some b => some { s with available_steps := some (u32sub b used_steps) }

/-- The spec's `next_deploy_salt()` operation: return `get_salt`, then
`increment_deploy_salt_base` (the pairing named in the claim). -/
def CheatnetState.next_deploy_salt (s : CheatnetState) : ContractAddressSalt × CheatnetState :=
  (s.get_salt, s.increment_deploy_salt_base)

/-- Salt values produced by `n` successive `next_deploy_salt` calls starting from `s`. -/
def deploySaltTrace : CheatnetState → Nat → List Nat
  | _, 0 => []
  | s, n + 1 => (s.next_deploy_salt).1.val :: deploySaltTrace (s.next_deploy_salt).2 n

/-- A concrete reader used to instantiate states in concrete evaluations. -/
def sampleReader : ExtendedStateReader :=
  { dict_state_reader := { tag := 0 }, fork_state_reader := none }

/-!
Model of Rust `str::replace`, used by `run_from_test_case` to strip the
`" Custom Hint Error: "` wrapper (crates/forge/src/running.rs:168): scan left to right,
substituting each (non-overlapping, leftmost) occurrence of the pattern.  The scan is
written with an explicit fuel argument equal to the input length so that it is
structurally recursive and kernel-computable; each step consumes at least one input
character, so the fuel never runs out on the given input.
-/

/-- One fuelled scan step of `str::replace` over character lists. -/
def replaceFuel (pat rep : List Char) : Nat → List Char → List Char
  | 0, s => s
  | _ + 1, [] => []
  | fuel + 1, c :: rest =>
    if pat.isPrefixOf (c :: rest) ∧ pat ≠ [] then
      rep ++ replaceFuel pat rep fuel ((c :: rest).drop pat.length)
    else
      c :: replaceFuel pat rep fuel rest

/-- Rust `str::replace` on character lists. -/
def listReplace (s pat rep : List Char) : List Char :=
  replaceFuel pat rep s.length s

/-- Rust `str::replace` on strings: `s.replace(pat, rep)`. -/
def strReplace (s pat rep : String) : String :=
  { data := listReplace s.data pat.data rep.data }

/-- Whether `pat` occurs as a contiguous substring of `s` (Rust `str::contains`). -/
def containsSub (pat : List Char) : List Char → Bool
  | [] => pat.isEmpty
  | c :: rest => pat.isPrefixOf (c :: rest) || containsSub pat rest

/-- crates/forge/src/running.rs:166-169: the `Failed` message built from a
`CairoRunError`'s display string,
`format!("\n    {}\n", error.to_string().replace(" Custom Hint Error: ", "\n    "))`. -/
def formatCairoRunErrorMsg (err_display : String) : String :=
  "\n    " ++ strReplace err_display (" Custom Hint Error: ") ("\n    ") ++ "\n"

/-!
Model of `std::collections::HashMap` as the list of its entries: `insert` replaces the
value under an already-present key and otherwise appends, `get` returns the entry under
a key.  `build_hints_dict` (crates/forge/src/running.rs:51-74) is embedded over these,
generic in the external hint and hint-parameter types of `cairo_lang_casm`.
-/

/-- `HashMap::insert`: replace the value under an existing key, else append the entry. -/
def mapInsert {K V : Type} [DecidableEq K] (m : List (K × V)) (k : K) (v : V) :
    List (K × V) :=
  if ∃ kv ∈ m, kv.1 = k then
    m.map fun kv => if kv.1 = k then (k, v) else kv
  else
    m ++ [(k, v)]

/-- `HashMap::get`: the value stored under `k`, if any. -/
def mapFind {K V : Type} [DecidableEq K] : List (K × V) → K → Option V
  | [], _ => none
  | kv :: rest, k => if kv.1 = k then some kv.2 else mapFind rest k

/-- A CASM instruction as consumed by `build_hints_dict`: its attached hints and the
size `instruction.body.op_size()` it occupies in the bytecode.  The hint type `H` is
external (`cairo_lang_casm::hints::Hint`), kept generic. -/
structure Instruction (H : Type) where
  hints : List H
  op_size : Nat
deriving DecidableEq

/-- The loop of `build_hints_dict` (crates/forge/src/running.rs:57-72): walk the
instructions keeping the running code offset; for an instruction with hints, register
every hint in `string_to_hint` under its textual rendering `fmt` and insert the
instruction's hints (converted by `toParams`, the external `hint_to_hint_params`) into
`hints_dict` under the current offset; always advance the offset by the op size. -/
def build_hints_dict_loop {H P : Type} (fmt : H → String) (toParams : H → P) :
    List (Instruction H) → Nat → List (Nat × List P) → List (String × H) →
    List (Nat × List P) × List (String × H)
  | [], _, hints_dict, string_to_hint => (hints_dict, string_to_hint)
  | instruction :: rest, hint_offset, hints_dict, string_to_hint =>
    if instruction.hints.isEmpty then
      build_hints_dict_loop fmt toParams rest (hint_offset + instruction.op_size)
        hints_dict string_to_hint
    else
      build_hints_dict_loop fmt toParams rest (hint_offset + instruction.op_size)
        (mapInsert hints_dict hint_offset (instruction.hints.map toParams))
        (instruction.hints.foldl (fun m h => mapInsert m (fmt h) h) string_to_hint)

/-- crates/forge/src/running.rs:51-74, `build_hints_dict`: both maps start empty and the
code offset starts at 0. -/
def build_hints_dict {H P : Type} (fmt : H → String) (toParams : H → P)
    (instructions : List (Instruction H)) :
    List (Nat × List P) × List (String × H) :=
  build_hints_dict_loop fmt toParams instructions 0 [] []

/-- Declarative description of the hint table: one entry per hint-carrying instruction,
keyed by the cumulative code offset. -/
def hintEntries {H P : Type} (toParams : H → P) (off : Nat) :
    List (Instruction H) → List (Nat × List P)
  | [] => []
  | i :: rest =>
    (if i.hints.isEmpty then [] else [(off, i.hints.map toParams)]) ++
      hintEntries toParams (off + i.op_size) rest

/-- `cairo_lang_casm::hints::Hint`, represented by a numeric code.  Its derived `Debug`
rendering (the map key built by `format!("{hint:?}")`) distinguishes distinct hints, so
the rendering is modelled by an injective encoding. -/
structure Hint where
  code : Nat
deriving DecidableEq

/-- The `Debug` rendering of a hint: an injective encoding into strings. -/
def Hint.render (h : Hint) : String :=
  { data := List.replicate h.code 'h' }

/-- `cairo_vm::serde::deserialize_program::HintParams`, represented by the code of the
hint it was converted from. -/
structure HintParams where
  code : Nat
deriving DecidableEq

/-- `cairo_lang_runner::casm_run::hint_to_hint_params` (external, injective
conversion). -/
def hint_to_hint_params (h : Hint) : HintParams :=
  { code := h.code }

/-!
Embedding of `crates/forge/src/running.rs`.  The external collaborators
(`SierraCasmRunner`, blockifier's execution machinery and the result conversion in
`test_case_summary.rs`) are supplied as deterministic oracle fields of `RunEnv`;
opaque external values (functions, VM run results, context handles) are represented by
tags.  A `World` records every (cached state, cheatnet state) pair a run constructs, so
that freshness and noninterference can be stated; the code never reads it.
-/

/-- `usize::MAX` on the 64-bit host. -/
def USIZE_MAX : Nat := 2 ^ 64 - 1

/-- A resolved test function (`cairo_lang_sierra::program::GenFunction`), opaque. -/
structure Func where
  tag : Nat
deriving DecidableEq

/-- The value produced by a successful `SierraCasmRunner::run_function`
(`cairo_lang_runner::RunResultStarknet`), opaque. -/
structure RunResult where
  tag : Nat
deriving DecidableEq

/-- `test_collector::TestCase`, with the two fields `run_from_test_case` reads. -/
structure TestCase where
  name : String
  available_gas : Option Nat
deriving DecidableEq

/-- Modelled from the spec: the Test Outcome variants (`TestCaseSummary`, defined in
`crates/forge/src/test_case_summary.rs`, not among the given sources) — the closed
variant set {Passed, Failed, Ignored}; the fields are those set at the construction
sites in `running.rs`. -/
inductive TestCaseSummary where
  | passed (name : String) (run_result : Option RunResult) (msg : Option String)
  | failed (name : String) (run_result : Option RunResult) (msg : Option String)
  | ignored (name : String)
deriving DecidableEq

/-- `cairo_lang_runner::RunnerError`: the `CairoRunError` variant is represented by the
display string of the wrapped error (the only thing the code uses); every other variant
is collapsed into `otherVariant` with a tag. -/
inductive RunnerError where
  | cairoRunError (display : String)
  | otherVariant (tag : Nat)
deriving DecidableEq

/-- The `anyhow::Error` values `run_from_test_case`/`run_from_test_case2` can
propagate, tagged by the `?` site they originate from. -/
inductive AnyhowError where
  | findFunctionFailed (msg : String)
  | initialGasFailed (msg : String)
  | entryCodeFailed (msg : String)
  | selectorFailed
  | runnerFailed (e : RunnerError)
  | initContextFailed (msg : String)
  | prepareArgsFailed (msg : String)
  | entryPointRunFailed (msg : String)
  | finalizeFailed (msg : String)
deriving DecidableEq

/-- `forge::cheatcodes_hint_processor::CairoHintProcessor` as constructed at
running.rs:139-148 and running.rs:306-315: the blockifier syscall handler's cached
state, the contract artifacts, a fresh `CheatnetState`, the `string_to_hint` map, and
`RunResources::default()` (no step limit). -/
structure CairoHintProcessor where
  blockifier_state : CachedState DictStateReader
  contracts : List (String × Nat)
  cheatnet_state : CheatnetState
  hints : List (String × Hint)
  run_resources : Option Nat
deriving DecidableEq

/-- Allocation arena: the (cached state, cheatnet state) pairs constructed so far.
Runs append to it and never read it. -/
structure World where
  allocated : List (CachedState DictStateReader × CheatnetState)
deriving DecidableEq

/-- Result of one `run_from_test_case` invocation: the returned
`Result<TestCaseSummary>`, the world extended with the states the call constructed,
and whether the VM was invoked. -/
structure RunOutput where
  result : Except AnyhowError TestCaseSummary
  world : World
  vm_invoked : Bool

/-- Result of one `run_from_test_case2` invocation; `result = none` models a panic
(out-of-bounds indexing at running.rs:212 or the `unwrap` at running.rs:240). -/
structure Run2Output where
  result : Option (Except AnyhowError TestCaseSummary)
  world : World
  vm_invoked : Bool

/-- The fixed inputs of one invocation together with the external collaborators as
deterministic oracles: `runner.*` methods, `build_testing_state(predeployed_contracts)`
(a pure function of the fixed path, hence one fixed reader value),
`StarkHash::new` at running.rs:108/253 (`selector_ok`), the blockifier construction and
finalization steps used by `run_from_test_case2`, and
`TestCaseSummary::from_run_result`. -/
structure RunEnv where
  find_function : String → Except String Func
  get_initial_available_gas : Func → Option Nat → Except String Nat
  create_entry_code : Func → Nat → Except String (List (Instruction Hint) × List String)
  create_code_footer : List (Instruction Hint)
  casm_instructions : List (Instruction Hint)
  selector_ok : Bool
  contracts : List (String × Nat)
  build_testing_state : DictStateReader
  run_function : Func → List (Nat × List HintParams) → List (Instruction Hint) →
    List String → CairoHintProcessor → Except RunnerError RunResult
  from_run_result : RunResult → TestCase → TestCaseSummary
  sierra_statement_offset : Func → Option Nat
  program_new : Option Nat
  init_execution_context : Nat → Nat → List (String × Hint) →
    CachedState DictStateReader → Except String Nat
  prepare_call_arguments : Nat → Except String Nat
  cheatable_run_entry_point : Nat → Nat → CairoHintProcessor → Except String Unit
  finalize_execution : Nat → Except String Nat

/-- crates/forge/src/running.rs:76-174, `run_from_test_case`.  Stage order follows the
source: resolve the function (line 88, `?`), compute initial gas (89, `?`), create
entry code (90, `?`), build instructions and the hint maps (92-97), convert the test
selector (108, `?`), construct a fresh cached state and a fresh `CheatnetState`
(121-148), re-resolve the function (151, `?`), run (150-156), and classify the
outcome (157-173). -/
def run_from_test_case (env : RunEnv) (case : TestCase) (w : World) : RunOutput :=
  let available_gas : Option Nat :=
    match case.available_gas with
    | some g => some g
    | none => some USIZE_MAX
  match env.find_function case.name with
  | .error e => { result := .error (.findFunctionFailed e), world := w, vm_invoked := false }
  | .ok func =>
    match env.get_initial_available_gas func available_gas with
    | .error e => { result := .error (.initialGasFailed e), world := w, vm_invoked := false }
    | .ok initial_gas =>
      match env.create_entry_code func initial_gas with
      | .error e => { result := .error (.entryCodeFailed e), world := w, vm_invoked := false }
      | .ok (entry_code, builtins) =>
        let footer := env.create_code_footer
        let instructions := entry_code ++ env.casm_instructions ++ footer
        let hd := build_hints_dict Hint.render hint_to_hint_params instructions
        if env.selector_ok then
          let processor : CairoHintProcessor :=
            { blockifier_state :=
                CachedState.new env.build_testing_state GlobalContractCache.default
              contracts := env.contracts
              cheatnet_state :=
                CheatnetState.new
                  { dict_state_reader := env.build_testing_state, fork_state_reader := none }
                  none
              hints := hd.2
              run_resources := none }
          let w2 : World :=
            { allocated :=
                w.allocated ++ [(processor.blockifier_state, processor.cheatnet_state)] }
          match env.find_function case.name with
          | .error e =>
            { result := .error (.findFunctionFailed e), world := w2, vm_invoked := false }
          | .ok func2 =>
            match env.run_function func2 hd.1 instructions builtins processor with
            | .ok result =>
              { result := .ok (env.from_run_result result case), world := w2,
                vm_invoked := true }
            | .error (RunnerError.cairoRunError e) =>
              { result := .ok (.failed case.name none (some (formatCairoRunErrorMsg e))),
                world := w2, vm_invoked := true }
            | .error err =>
              { result := .error (.runnerFailed err), world := w2, vm_invoked := true }
        else
          { result := .error .selectorFailed, world := w, vm_invoked := false }

/-- crates/forge/src/running.rs:176-344, `run_from_test_case2`.  Stage order follows
the source: resolve the function (190, `?`), build the hint maps over the bare CASM
instructions (208-211), index the entry offset (212, may panic), assemble the program
(215-240, `unwrap` may panic), convert the selector (253, `?`), construct the cached
state (271), initialize the execution context (278-293, `?`), prepare arguments
(295-301, `?`), construct the processor with a fresh `CheatnetState` (306-315), run the
entry point (318-325, `?`), finalize (328-335, `?`), and unconditionally return
`Failed` with the placeholder name "aeae" (339-343). -/
def run_from_test_case2 (env : RunEnv) (case : TestCase) (w : World) : Run2Output :=
  match env.find_function case.name with
  | .error e =>
    { result := some (.error (.findFunctionFailed e)), world := w, vm_invoked := false }
  | .ok func =>
    let hd := build_hints_dict Hint.render hint_to_hint_params env.casm_instructions
    match env.sierra_statement_offset func with
    | none => { result := none, world := w, vm_invoked := false }
    | some offset =>
      match env.program_new with
      | none => { result := none, world := w, vm_invoked := false }
      | some program =>
        if env.selector_ok then
          let blockifier_state :=
            CachedState.new env.build_testing_state GlobalContractCache.default
          match env.init_execution_context program offset hd.2 blockifier_state with
          | .error e =>
            { result := some (.error (.initContextFailed e)), world := w,
              vm_invoked := false }
          | .ok vm_ctx =>
            match env.prepare_call_arguments vm_ctx with
            | .error e =>
              { result := some (.error (.prepareArgsFailed e)), world := w,
                vm_invoked := false }
            | .ok args =>
              let processor : CairoHintProcessor :=
                { blockifier_state := blockifier_state
                  contracts := env.contracts
                  cheatnet_state :=
                    CheatnetState.new
                      { dict_state_reader := env.build_testing_state,
                        fork_state_reader := none }
                      none
                  hints := hd.2
                  run_resources := none }
              let w2 : World :=
                { allocated :=
                    w.allocated ++ [(processor.blockifier_state, processor.cheatnet_state)] }
              match env.cheatable_run_entry_point vm_ctx args processor with
              | .error e =>
                { result := some (.error (.entryPointRunFailed e)), world := w2,
                  vm_invoked := true }
              | .ok _ =>
                match env.finalize_execution vm_ctx with
                | .error e =>
                  { result := some (.error (.finalizeFailed e)), world := w2,
                    vm_invoked := true }
                | .ok _ =>
                  { result := some (.ok (.failed ("aeae") none none)), world := w2,
                    vm_invoked := true }
        else
          { result := some (.error .selectorFailed), world := w, vm_invoked := false }

/-- A concrete all-succeeding environment, used to instantiate the theorems. -/
def sampleRunEnv : RunEnv :=
  { find_function := fun _ => .ok { tag := 0 }
    get_initial_available_gas := fun _ _ => .ok 7
    create_entry_code := fun _ _ => .ok ([], [])
    create_code_footer := []
    casm_instructions :=
      [{ hints := [{ code := 5 }], op_size := 2 },
       { hints := [], op_size := 1 },
       { hints := [{ code := 7 }], op_size := 1 }]
    selector_ok := true
    contracts := []
    build_testing_state := { tag := 0 }
    run_function := fun _ _ _ _ _ => .ok { tag := 0 }
    from_run_result := fun r c => .passed c.name (some r) none
    sierra_statement_offset := fun _ => some 0
    program_new := some 0
    init_execution_context := fun _ _ _ _ => .ok 0
    prepare_call_arguments := fun _ => .ok 0
    cheatable_run_entry_point := fun _ _ _ => .ok ()
    finalize_execution := fun _ => .ok 0 }

/-- A concrete test case for instantiating the theorems. -/
def sampleCase : TestCase := { name := "test_case", available_gas := none }

/-- The empty allocation arena. -/
def emptyWorld : World := { allocated := [] }

/-- Concrete instruction list for instantiating the `build_hints_dict` theorem:
hint-carrying instructions at cumulative offsets 0 and 3. -/
def demoInstructions : List (Instruction Hint) :=
  [{ hints := [{ code := 5 }], op_size := 2 },
   { hints := [], op_size := 1 },
   { hints := [{ code := 7 }], op_size := 1 }]

/-- `sampleRunEnv` whose VM run fails with a `CairoRunError`. -/
def sampleRunEnvHintErr : RunEnv :=
  { sampleRunEnv with
    run_function := fun _ _ _ _ _ => .error (.cairoRunError ("boom")) }

/-- `sampleRunEnv` whose VM run fails with a non-`CairoRunError` runner error. -/
def sampleRunEnvOtherErr : RunEnv :=
  { sampleRunEnv with run_function := fun _ _ _ _ _ => .error (.otherVariant 9) }

/-- `sampleRunEnv` whose function lookup fails. -/
def sampleRunEnvNoFunc : RunEnv :=
  { sampleRunEnv with find_function := fun _ => .error ("not found") }

/-! Theorems. -/

theorem U32_MOD_pos : 0 < U32_MOD := by
  unfold U32_MOD
  positivity

/-- The salt values of `n` successive `next_deploy_salt` calls are the wrapped
increments of the starting counter. -/
theorem deploySaltTrace_eq (n : Nat) : ∀ (s : CheatnetState),
    s.deploy_salt_base < U32_MOD →
    deploySaltTrace s n =
      (List.range n).map (fun k => (s.deploy_salt_base + k) % U32_MOD) := by
  induction n with
  | zero => intro s _; rfl
  | succ m ih =>
    intro s hs
    have hinc : (s.increment_deploy_salt_base).deploy_salt_base =
        (s.deploy_salt_base + 1) % U32_MOD := rfl
    have htail := ih s.increment_deploy_salt_base
      (by rw [hinc]; exact Nat.mod_lt _ U32_MOD_pos)
    have hstep : deploySaltTrace s (m + 1) =
        s.deploy_salt_base :: deploySaltTrace s.increment_deploy_salt_base m := rfl
    rw [hstep, htail, hinc, List.range_succ_eq_map, List.map_cons, List.map_map]
    refine congrArg₂ List.cons ?_ ?_
    · exact (Nat.mod_eq_of_lt hs).symm ▸ (congrArg (· % U32_MOD) (Nat.add_zero _).symm)
    · refine List.map_congr_left fun k _ => ?_
      show ((s.deploy_salt_base + 1) % U32_MOD + k) % U32_MOD =
        (s.deploy_salt_base + Nat.succ k) % U32_MOD
      rw [Nat.mod_add_mod]
      exact congrArg (· % U32_MOD) (by omega)

/-- C1: the claim says `decrease_available_steps` fails with `ResourceExhausted` when
`n > B` and never panics the host process.  The code (crates/cheatnet/src/lib.rs:42-44)
has no exhaustion check at all: evaluated at the failing input `B = 0`, `n = 1` it
"succeeds", wrapping the `u32` subtraction to 4294967295 (a debug build would abort the
host process instead) — in neither profile is a `ResourceExhausted` failure produced.
The success side of the claim (`n ≤ B` leaves `B - n`) is exhibited at `B = 5`,
`n = 3`. -/
theorem decrease_available_steps_unchecked :
    (CheatnetState.new sampleReader (some 5)).decrease_available_steps 3 =
      some { CheatnetState.new sampleReader (some 5) with available_steps := some 2 } ∧
    (CheatnetState.new sampleReader (some 0)).decrease_available_steps 1 =
      some { CheatnetState.new sampleReader (some 0) with
               available_steps := some 4294967295 } := by
  constructor <;> rfl

/-- C2: the claim says that on a budget-less state (`available_steps = None`) the
step-consumption operation performs no accounting and never fails.  The code
unconditionally calls `Option::unwrap` (crates/cheatnet/src/lib.rs:43), so on a
budget-less state it panics in every build profile — here, evaluated at `n = 0`, the
result is `none` (the modelled panic) rather than the untouched state. -/
theorem decrease_available_steps_none_aborts :
    (CheatnetState.new sampleReader none).decrease_available_steps 0 = none := rfl

/-- C10: `CheatnetState::new` (crates/cheatnet/src/lib.rs:22-31) yields deploy-salt
counter 0, `available_steps` exactly the caller-supplied `max_steps`, and an empty
cheatcode registry (the registry emptiness relies on the spec-modelled
`CheatcodeState::new`). -/
theorem cheatnet_state_new_spec :
    ∀ (reader : ExtendedStateReader) (max_steps : Option Nat),
      (CheatnetState.new reader max_steps).deploy_salt_base = 0 ∧
      (CheatnetState.new reader max_steps).available_steps = max_steps ∧
      (CheatnetState.new reader max_steps).cheatcode_state.cheats = [] ∧
      (CheatnetState.new reader max_steps).blockifier_state =
        CachedState.new reader GlobalContractCache.default :=
  fun _ _ => ⟨rfl, rfl, rfl, rfl⟩

/-- C3 (amended): starting from a fresh test case, for every `N ≤ 2 ^ 32`, `N`
successive `next_deploy_salt()` calls yield exactly the salts `0, 1, ..., N - 1` — `N`
distinct, strictly increasing values, the counter never decreasing or resetting within
those calls.  (Beyond `2 ^ 32` calls the `u32` counter wraps, see the counterexample.) -/
theorem next_deploy_salt_monotone (reader : ExtendedStateReader) (max_steps : Option Nat)
    (n : Nat) (hn : n ≤ U32_MOD) :
    deploySaltTrace (CheatnetState.new reader max_steps) n = List.range n ∧
    (deploySaltTrace (CheatnetState.new reader max_steps) n).Nodup ∧
    List.Pairwise (· < ·) (deploySaltTrace (CheatnetState.new reader max_steps) n) := by
  have hb : (CheatnetState.new reader max_steps).deploy_salt_base = 0 := rfl
  have ht := deploySaltTrace_eq n (CheatnetState.new reader max_steps)
    (by rw [hb]; exact U32_MOD_pos)
  rw [hb] at ht
  have heq : deploySaltTrace (CheatnetState.new reader max_steps) n = List.range n := by
    rw [ht]
    have : ∀ k ∈ List.range n, (0 + k) % U32_MOD = k := by
      intro k hk
      rw [Nat.zero_add]
      exact Nat.mod_eq_of_lt (lt_of_lt_of_le (List.mem_range.mp hk) hn)
    rw [List.map_congr_left this]
    exact List.map_id _
  exact ⟨heq, heq ▸ List.nodup_range n, heq ▸ List.pairwise_lt_range n⟩

/-- C3 witness: three calls on a fresh state yield the salts 0, 1, 2. -/
theorem next_deploy_salt_monotone_witness :
    deploySaltTrace (CheatnetState.new sampleReader none) 3 = List.range 3 ∧
    (deploySaltTrace (CheatnetState.new sampleReader none) 3).Nodup ∧
    List.Pairwise (· < ·) (deploySaltTrace (CheatnetState.new sampleReader none) 3) :=
  next_deploy_salt_monotone sampleReader none 3 (by norm_num [U32_MOD])

/-- C3 counterexample: the claim as stated (for every `N`) is false.  At
`N = 2 ^ 32 + 1` the `u32` counter wraps: the call number `2 ^ 32 + 1` returns salt 0
again, so the `N` values are neither distinct nor strictly increasing. -/
theorem next_deploy_salt_wraps :
    ¬ ((deploySaltTrace (CheatnetState.new sampleReader none) (U32_MOD + 1)).Nodup ∧
       List.Pairwise (· < ·)
         (deploySaltTrace (CheatnetState.new sampleReader none) (U32_MOD + 1))) := by
  intro hcl
  have hb : (CheatnetState.new sampleReader none).deploy_salt_base = 0 := rfl
  have ht := deploySaltTrace_eq (U32_MOD + 1) (CheatnetState.new sampleReader none)
    (by rw [hb]; exact U32_MOD_pos)
  rw [hb] at ht
  have hpw := hcl.2
  rw [ht, List.range_succ, List.map_append] at hpw
  rcases List.pairwise_append.mp hpw with ⟨_, _, hcross⟩
  have hmem : (0 : Nat) ∈ (List.range U32_MOD).map (fun k => (0 + k) % U32_MOD) :=
    List.mem_map.mpr ⟨0, List.mem_range.mpr U32_MOD_pos, by simp⟩
  have hlast : (0 : Nat) ∈ ([U32_MOD].map (fun k => (0 + k) % U32_MOD)) := by
    simp [Nat.mod_self]
  exact absurd (hcross 0 hmem 0 hlast) (lt_irrefl 0)

/-- `str::replace` leaves a string without any occurrence of the pattern unchanged. -/
theorem replaceFuel_of_not_contains (pat rep : List Char) :
    ∀ (fuel : Nat) (s : List Char), containsSub pat s = false →
      replaceFuel pat rep fuel s = s := by
  intro fuel
  induction fuel with
  | zero => intro s _; rfl
  | succ m ih =>
    intro s hs
    cases s with
    | nil => rfl
    | cons c rest =>
      rw [containsSub] at hs
      rw [Bool.or_eq_false_iff] at hs
      rw [replaceFuel, if_neg, ih rest hs.2]
      intro hcontra
      rw [hs.1] at hcontra
      exact Bool.false_ne_true hcontra.1

/-- `str::replace` on strings leaves a pattern-free string unchanged. -/
theorem strReplace_of_not_contains (s pat rep : String)
    (h : containsSub pat.data s.data = false) : strReplace s pat rep = s := by
  cases s with
  | mk data =>
    show String.mk (listReplace data pat.data rep.data) = String.mk data
    rw [listReplace, replaceFuel_of_not_contains pat.data rep.data data.length data h]

/-- C5 (amended): the `Failed` message for a hint-originated runner error is exactly
the error's display string with every `" Custom Hint Error: "` occurrence replaced by a
newline plus indentation, preceded by a newline plus indentation and followed by a
newline; a display string free of the marker is embedded verbatim between those
affixes.  (Distinct display strings may still produce the same message, so the cause is
not uniquely recoverable — see the counterexample.) -/
theorem failed_msg_format (e : String) :
    formatCairoRunErrorMsg e =
      "\n    " ++ strReplace e (" Custom Hint Error: ") ("\n    ") ++ "\n" ∧
    (containsSub (" Custom Hint Error: ").data e.data = false →
      formatCairoRunErrorMsg e = "\n    " ++ e ++ "\n") := by
  refine ⟨rfl, fun h => ?_⟩
  rw [formatCairoRunErrorMsg, strReplace_of_not_contains e (" Custom Hint Error: ") ("\n    ") h]

/-- C5 witness: a marker-free display string is embedded verbatim. -/
theorem failed_msg_format_witness :
    formatCairoRunErrorMsg ("oops") = "\n    " ++ "oops" ++ "\n" :=
  (failed_msg_format ("oops")).2 (by decide)

/-- C5 counterexample: the underlying cause is not fully recoverable from the message —
the display strings "a\n    b" and "a Custom Hint Error: b" are distinct but formatted
to the same `Failed` message. -/
theorem failed_msg_not_recoverable :
    formatCairoRunErrorMsg ("a\n    b") =
      formatCairoRunErrorMsg ("a Custom Hint Error: b") ∧
    ("a\n    b" : String) ≠ ("a Custom Hint Error: b" : String) := by
  constructor
  · decide
  · decide

/-- C6: when the test case's function name is not found, `run_from_test_case` returns
the lookup error (reported as Errored by the caller) before the VM is invoked: the VM
flag is false and the allocation arena is untouched (no execution state constructed or
modified). -/
theorem missing_function_skips_vm (env : RunEnv) (case : TestCase) (w : World)
    (e : String) (h : env.find_function case.name = .error e) :
    run_from_test_case env case w =
      { result := .error (.findFunctionFailed e), world := w, vm_invoked := false } := by
  simp [run_from_test_case, h]

/-- C6 witness: a concrete environment whose function lookup fails. -/
theorem missing_function_skips_vm_witness :
    run_from_test_case sampleRunEnvNoFunc sampleCase emptyWorld =
      { result := .error (.findFunctionFailed ("not found")), world := emptyWorld,
        vm_invoked := false } :=
  missing_function_skips_vm sampleRunEnvNoFunc sampleCase emptyWorld ("not found") rfl

/-- C4: once the build stages succeed, `run_from_test_case` classifies the VM run's
outcome exactly as the match at running.rs:150-173 does — a `CairoRunError` (which
includes hint errors from the cheatcode processor) yields `Ok` carrying a `Failed`
outcome with the formatted message (so it never becomes `Err`), while any other runner
error is propagated as `Err` (so it never becomes a `Failed` outcome). -/
theorem run_classifies_runner_errors :
    (∀ (env : RunEnv) (case : TestCase) (w : World) (func : Func) (g : Nat)
        (ec : List (Instruction Hint)) (bs : List String) (e : String),
      env.find_function case.name = .ok func →
      (∀ f ag, env.get_initial_available_gas f ag = .ok g) →
      (∀ f ig, env.create_entry_code f ig = .ok (ec, bs)) →
      env.selector_ok = true →
      (∀ f hd ins b p, env.run_function f hd ins b p = .error (.cairoRunError e)) →
      (run_from_test_case env case w).result =
        .ok (.failed case.name none (some (formatCairoRunErrorMsg e)))) ∧
    (∀ (env : RunEnv) (case : TestCase) (w : World) (func : Func) (g : Nat)
        (ec : List (Instruction Hint)) (bs : List String) (t : Nat),
      env.find_function case.name = .ok func →
      (∀ f ag, env.get_initial_available_gas f ag = .ok g) →
      (∀ f ig, env.create_entry_code f ig = .ok (ec, bs)) →
      env.selector_ok = true →
      (∀ f hd ins b p, env.run_function f hd ins b p = .error (.otherVariant t)) →
      (run_from_test_case env case w).result =
        .error (.runnerFailed (.otherVariant t))) := by
  constructor
  · intro env case w func g ec bs e hf hg hec hsel hrun
    simp [run_from_test_case, hf, hg, hec, hsel, hrun]
  · intro env case w func g ec bs t hf hg hec hsel hrun
    simp [run_from_test_case, hf, hg, hec, hsel, hrun]

/-- C4 witness: concrete environments exercising both classification arms. -/
theorem run_classifies_runner_errors_witness :
    (run_from_test_case sampleRunEnvHintErr sampleCase emptyWorld).result =
      .ok (.failed sampleCase.name none (some (formatCairoRunErrorMsg ("boom")))) ∧
    (run_from_test_case sampleRunEnvOtherErr sampleCase emptyWorld).result =
      .error (.runnerFailed (.otherVariant 9)) :=
  ⟨run_classifies_runner_errors.1 sampleRunEnvHintErr sampleCase emptyWorld { tag := 0 }
      7 [] [] ("boom") rfl (fun _ _ => rfl) (fun _ _ => rfl) rfl
      (fun _ _ _ _ _ => rfl),
   run_classifies_runner_errors.2 sampleRunEnvOtherErr sampleCase emptyWorld { tag := 0 }
      7 [] [] 9 rfl (fun _ _ => rfl) (fun _ _ => rfl) rfl
      (fun _ _ _ _ _ => rfl)⟩

/-- The result and VM flag of `run_from_test_case` do not depend on the incoming
allocation arena: the run reads nothing that earlier runs constructed. -/
theorem run_result_world_indep (env : RunEnv) (c : TestCase) (wa wb : World) :
    (run_from_test_case env c wa).result = (run_from_test_case env c wb).result ∧
    (run_from_test_case env c wa).vm_invoked = (run_from_test_case env c wb).vm_invoked := by
  constructor <;>
    · simp only [run_from_test_case]
      repeat' split
      all_goals rfl

/-- `run_from_test_case` either constructs no execution state (an early error) or
exactly one fresh cached-state/cheatnet-state pair, both built from
`build_testing_state` alone. -/
theorem run_world_shape (env : RunEnv) (c : TestCase) (w : World) :
    (run_from_test_case env c w).world.allocated = w.allocated ∨
    (run_from_test_case env c w).world.allocated =
      w.allocated ++
        [(CachedState.new env.build_testing_state GlobalContractCache.default,
          CheatnetState.new
            { dict_state_reader := env.build_testing_state,
              fork_state_reader := none } none)] := by
  simp only [run_from_test_case]
  repeat' split
  all_goals first
    | exact Or.inl rfl
    | exact Or.inr rfl

/-- C8: every invocation of `run_from_test_case` builds a fresh cached state over
`build_testing_state` and a fresh `CheatnetState`, shared with no other invocation
(the only states it adds to the arena are the canonical fresh ones, and it reads
nothing from the arena); consequently the second of two sequential runs produces the
same result as when run alone — a two-run noninterference statement. -/
theorem run_fresh_state_noninterference :
    ∀ (env : RunEnv) (c1 c2 : TestCase) (w wa wb : World),
      (run_from_test_case env c2 wa).result = (run_from_test_case env c2 wb).result ∧
      (run_from_test_case env c2 (run_from_test_case env c1 w).world).result =
        (run_from_test_case env c2 w).result ∧
      ((run_from_test_case env c2 w).world.allocated = w.allocated ∨
       (run_from_test_case env c2 w).world.allocated =
         w.allocated ++
           [(CachedState.new env.build_testing_state GlobalContractCache.default,
             CheatnetState.new
               { dict_state_reader := env.build_testing_state,
                 fork_state_reader := none } none)]) :=
  fun env c1 c2 w wa wb =>
    ⟨(run_result_world_indep env c2 wa wb).1,
     (run_result_world_indep env c2 (run_from_test_case env c1 w).world w).1,
     run_world_shape env c2 w⟩

/-- C9: `run_from_test_case2` never returns a `Passed` outcome; when every execution
and finalization stage succeeds it returns `Ok` carrying a `Failed` outcome with the
fixed placeholder name "aeae", no run result and no message (running.rs:339-343). -/
theorem run2_placeholder_failed :
    (∀ (env : RunEnv) (case : TestCase) (w : World) (name : String)
        (rr : Option RunResult) (m : Option String),
      (run_from_test_case2 env case w).result ≠ some (.ok (.passed name rr m))) ∧
    (∀ (env : RunEnv) (case : TestCase) (w : World) (func : Func)
        (off pg vc ag fi : Nat),
      env.find_function case.name = .ok func →
      env.sierra_statement_offset func = some off →
      env.program_new = some pg →
      env.selector_ok = true →
      (∀ a b c d, env.init_execution_context a b c d = .ok vc) →
      (∀ a, env.prepare_call_arguments a = .ok ag) →
      (∀ a b p, env.cheatable_run_entry_point a b p = .ok ()) →
      (∀ a, env.finalize_execution a = .ok fi) →
      (run_from_test_case2 env case w).result =
        some (.ok (.failed ("aeae") none none))) := by
  constructor
  · intro env case w name rr m
    simp only [run_from_test_case2]
    repeat' split
    all_goals simp
  · intro env case w func off pg vc ag fi hf hso hpn hsel hic hpc hcr hfin
    simp [run_from_test_case2, hf, hso, hpn, hsel, hic, hpc, hcr, hfin]

/-- C9 witness: the all-succeeding environment produces the placeholder `Failed`. -/
theorem run2_placeholder_failed_witness :
    (run_from_test_case2 sampleRunEnv sampleCase emptyWorld).result =
      some (.ok (.failed ("aeae") none none)) :=
  run2_placeholder_failed.2 sampleRunEnv sampleCase emptyWorld { tag := 0 } 0 0 0 0 0
    rfl rfl rfl rfl (fun _ _ _ _ => rfl) (fun _ => rfl) (fun _ _ _ => rfl) (fun _ => rfl)

/-- Inserting under a key absent from the map appends the entry. -/
theorem mapInsert_of_not_mem {K V : Type} [DecidableEq K] (m : List (K × V)) (k : K)
    (v : V) (h : ∀ kv ∈ m, kv.1 ≠ k) : mapInsert m k v = m ++ [(k, v)] := by
  rw [mapInsert, if_neg]
  rintro ⟨kv, hkv, he⟩
  exact h kv hkv he

/-- The hint-table accumulator of `build_hints_dict_loop`: with all accumulated keys
below the running offset and positive op sizes, the loop appends exactly the
declarative entries. -/
theorem build_loop_fst {H P : Type} (fmt : H → String) (toParams : H → P) :
    ∀ (instrs : List (Instruction H)) (off : Nat) (d : List (Nat × List P))
      (s : List (String × H)),
      (∀ i ∈ instrs, 0 < i.op_size) → (∀ kv ∈ d, kv.1 < off) →
      (build_hints_dict_loop fmt toParams instrs off d s).1 =
        d ++ hintEntries toParams off instrs := by
  intro instrs
  induction instrs with
  | nil => intro off d s _ _; simp [build_hints_dict_loop, hintEntries]
  | cons a rest ih =>
    intro off d s hop hkeys
    rw [build_hints_dict_loop, hintEntries]
    cases hemp : a.hints.isEmpty with
    | true =>
      rw [if_pos rfl, if_pos rfl]
      rw [ih (off + a.op_size) d s (fun i hi => hop i (List.mem_cons_of_mem a hi))
        (fun kv hkv => lt_of_lt_of_le (hkeys kv hkv) (Nat.le_add_right off a.op_size))]
      simp
    | false =>
      rw [if_neg (by simp), if_neg (by simp)]
      have hsz : 0 < a.op_size := hop a (List.mem_cons_self a rest)
      have hins : mapInsert d off (a.hints.map toParams) =
          d ++ [(off, a.hints.map toParams)] :=
        mapInsert_of_not_mem d off _ (fun kv hkv => Nat.ne_of_lt (hkeys kv hkv))
      rw [hins, ih (off + a.op_size) (d ++ [(off, a.hints.map toParams)]) _
        (fun i hi => hop i (List.mem_cons_of_mem a hi)) ?keys]
      · simp
      case keys =>
        intro kv hkv
        rcases List.mem_append.mp hkv with hin | hone
        · exact lt_of_lt_of_le (lt_trans (hkeys kv hin) (Nat.lt_add_of_pos_right hsz))
            (Nat.le_refl _)
        · rcases List.mem_singleton.mp hone with rfl
          exact Nat.lt_add_of_pos_right hsz

/-- Membership characterization of the declarative hint table: an entry is present
exactly for each decomposition around a hint-carrying instruction, keyed by the base
offset plus the sum of op sizes of the preceding instructions. -/
theorem hintEntries_mem {H P : Type} (toParams : H → P) :
    ∀ (instrs : List (Instruction H)) (off o : Nat) (ps : List P),
      (o, ps) ∈ hintEntries toParams off instrs ↔
        ∃ pre i post, instrs = pre ++ i :: post ∧
          o = off + ((pre.map Instruction.op_size).sum) ∧
          i.hints ≠ [] ∧ ps = i.hints.map toParams := by
  intro instrs
  induction instrs with
  | nil =>
    intro off o ps
    constructor
    · intro hmem; simp [hintEntries] at hmem
    · rintro ⟨pre, i, post, hd, -, -, -⟩
      cases pre <;> simp at hd
  | cons a rest ih =>
    intro off o ps
    rw [hintEntries]
    constructor
    · intro hmem
      rcases List.mem_append.mp hmem with hhead | htail
      · cases hemp : a.hints.isEmpty with
        | true => rw [if_pos hemp] at hhead; simp at hhead
        | false =>
          rw [if_neg (by simp [hemp])] at hhead
          rcases List.mem_singleton.mp hhead with heq
          have heq1 : o = off := congrArg Prod.fst heq
          have heq2 : ps = a.hints.map toParams := congrArg Prod.snd heq
          refine ⟨[], a, rest, rfl, by simp [heq1], ?_, heq2⟩
          exact List.isEmpty_eq_false.mp hemp
      · rcases (ih (off + a.op_size) o ps).mp htail with ⟨pre, i, post, hd, ho, hne, hps⟩
        refine ⟨a :: pre, i, post, by rw [hd, List.cons_append], ?_, hne, hps⟩
        rw [ho]
        simp only [List.map_cons, List.sum_cons]
        omega
    · rintro ⟨pre, i, post, hd, ho, hne, hps⟩
      cases pre with
      | nil =>
        simp only [List.nil_append, List.cons.injEq] at hd
        rcases hd with ⟨ha, hr⟩
        apply List.mem_append.mpr
        left
        have hemp : a.hints.isEmpty = false := by
          rw [ha]
          exact List.isEmpty_eq_false.mpr hne
        rw [if_neg (by simp [hemp])]
        have ho2 : o = off := by simpa using ho
        rw [List.mem_singleton, ho2, hps, ha]
      | cons b pre2 =>
        simp only [List.cons_append, List.cons.injEq] at hd
        rcases hd with ⟨hab, hr⟩
        apply List.mem_append.mpr
        right
        apply (ih (off + a.op_size) o ps).mpr
        refine ⟨pre2, i, post, hr, ?_, hne, hps⟩
        rw [ho, hab]
        simp only [List.map_cons, List.sum_cons]
        omega

/-- The `string_to_hint` accumulator of `build_hints_dict_loop` is the fold of
`HashMap::insert` over all hints of the instruction sequence. -/
theorem build_loop_snd {H P : Type} (fmt : H → String) (toParams : H → P) :
    ∀ (instrs : List (Instruction H)) (off : Nat) (d : List (Nat × List P))
      (s : List (String × H)),
      (build_hints_dict_loop fmt toParams instrs off d s).2 =
        ((instrs.map Instruction.hints).flatten).foldl
          (fun m h => mapInsert m (fmt h) h) s := by
  intro instrs
  induction instrs with
  | nil => intro off d s; rfl
  | cons a rest ih =>
    intro off d s
    rw [build_hints_dict_loop, List.map_cons, List.flatten_cons, List.foldl_append]
    cases hemp : a.hints.isEmpty with
    | true =>
      rw [if_pos rfl, ih, List.isEmpty_iff.mp hemp]
      rfl
    | false =>
      rw [if_neg (by simp), ih]

/-- Replacing under key `k` in every entry makes lookup of `k` return the new value,
provided an entry with key `k` exists. -/
theorem mapFind_map_replace {K V : Type} [DecidableEq K] (k : K) (v : V) :
    ∀ (m : List (K × V)), (∃ kv ∈ m, kv.1 = k) →
      mapFind (m.map fun kv => if kv.1 = k then (k, v) else kv) k = some v := by
  intro m
  induction m with
  | nil => intro hex; simp at hex
  | cons kv0 tl ih =>
    intro hex
    rw [List.map_cons, mapFind]
    by_cases h0 : kv0.1 = k
    · rw [if_pos h0]
      simp
    · rw [if_neg h0, if_neg h0]
      apply ih
      rcases hex with ⟨kv, hkv, he⟩
      rcases List.mem_cons.mp hkv with rfl | htl
      · exact absurd he h0
      · exact ⟨kv, htl, he⟩

/-- Appending an entry with key `k` to a map without `k` makes lookup of `k` return
its value. -/
theorem mapFind_append_self {K V : Type} [DecidableEq K] (k : K) (v : V) :
    ∀ (m : List (K × V)), (∀ kv ∈ m, kv.1 ≠ k) →
      mapFind (m ++ [(k, v)]) k = some v := by
  intro m
  induction m with
  | nil => simp [mapFind]
  | cons kv0 tl ih =>
    intro hno
    rw [List.cons_append, mapFind, if_neg (hno kv0 (List.mem_cons_self kv0 tl))]
    exact ih (fun kv hkv => hno kv (List.mem_cons_of_mem kv0 hkv))

/-- `HashMap::insert` followed by lookup of the same key yields the inserted value. -/
theorem mapFind_insert_self {K V : Type} [DecidableEq K] (m : List (K × V)) (k : K)
    (v : V) : mapFind (mapInsert m k v) k = some v := by
  by_cases hex : ∃ kv ∈ m, kv.1 = k
  · rw [mapInsert, if_pos hex]
    exact mapFind_map_replace k v m hex
  · rw [mapInsert, if_neg hex]
    exact mapFind_append_self k v m (fun kv hkv hc => hex ⟨kv, hkv, hc⟩)

/-- `HashMap::insert` under a different key does not change a lookup. -/
theorem mapFind_insert_ne {K V : Type} [DecidableEq K] (m : List (K × V)) (k k2 : K)
    (v2 : V) (hne : k ≠ k2) : mapFind (mapInsert m k2 v2) k = mapFind m k := by
  rw [mapInsert]
  by_cases hex : ∃ kv ∈ m, kv.1 = k2
  · rw [if_pos hex]
    clear hex
    induction m with
    | nil => rfl
    | cons kv0 tl ih =>
      rw [List.map_cons, mapFind, mapFind]
      by_cases h0 : kv0.1 = k2
      · have hk2 : ¬ (k2, v2).1 = k := fun hc => hne hc.symm
        have hk0 : ¬ kv0.1 = k := by
          rw [h0]; exact fun hc => hne hc.symm
        rw [if_pos h0, if_neg hk2, if_neg hk0]
        exact ih
      · rw [if_neg h0]
        by_cases h1 : kv0.1 = k
        · rw [if_pos h1, if_pos h1]
        · rw [if_neg h1, if_neg h1]
          exact ih
  · rw [if_neg hex]
    induction m with
    | nil =>
      rw [List.nil_append, mapFind, mapFind, if_neg (fun hc : k2 = k => hne hc.symm)]
      rfl
    | cons kv0 tl ih =>
      rw [List.cons_append, mapFind, mapFind]
      by_cases h1 : kv0.1 = k
      · rw [if_pos h1, if_pos h1]
      · rw [if_neg h1, if_neg h1]
        exact ih (by rintro ⟨kv, hkv, he⟩; exact hex ⟨kv, List.mem_cons_of_mem kv0 hkv, he⟩)

/-- A mapping `fmt h ↦ h` survives any further inserts of pairs `(fmt x, x)` when
`fmt` is injective. -/
theorem mapFind_foldl_retain {H : Type} (fmt : H → String)
    (hfmt : Function.Injective fmt) (h : H) :
    ∀ (l : List H) (s : List (String × H)),
      mapFind s (fmt h) = some h →
      mapFind (l.foldl (fun m x => mapInsert m (fmt x) x) s) (fmt h) = some h := by
  intro l
  induction l with
  | nil => intro s hs; exact hs
  | cons x tl ih =>
    intro s hs
    rw [List.foldl_cons]
    apply ih
    by_cases hx : fmt x = fmt h
    · rcases hfmt hx with rfl
      exact mapFind_insert_self s (fmt x) x
    · rw [mapFind_insert_ne s (fmt h) (fmt x) x (fun hc => hx hc.symm)]
      exact hs

/-- After folding `HashMap::insert` of `(fmt x, x)` over a hint list, every hint of the
list is found under its rendering (for injective `fmt`). -/
theorem mapFind_foldl_mem {H : Type} (fmt : H → String)
    (hfmt : Function.Injective fmt) :
    ∀ (l : List H) (s : List (String × H)) (h : H), h ∈ l →
      mapFind (l.foldl (fun m x => mapInsert m (fmt x) x) s) (fmt h) = some h := by
  intro l
  induction l with
  | nil => intro s h hh; exact absurd hh (List.not_mem_nil h)
  | cons x tl ih =>
    intro s h hh
    rw [List.foldl_cons]
    rcases List.mem_cons.mp hh with rfl | htl
    · exact mapFind_foldl_retain fmt hfmt h tl _ (mapFind_insert_self s (fmt h) h)
    · exact ih _ h htl

/-- The modelled `Debug` rendering of hints is injective. -/
theorem Hint.render_inj : Function.Injective Hint.render := by
  intro a b hab
  have hdata : List.replicate a.code 'h' = List.replicate b.code 'h' :=
    congrArg String.data hab
  have hlen := congrArg List.length hdata
  simp only [List.length_replicate] at hlen
  cases a; cases b; simp_all

/-- C7: for every instruction sequence (with the op sizes positive, as they are for
CASM instruction bodies, and a faithful hint rendering), `build_hints_dict` returns a
hint table whose entries are exactly the cumulative code offsets of the hint-carrying
instructions — each mapped to that instruction's hints converted by
`hint_to_hint_params` in order, hint-free instructions contributing nothing — and a
string-to-hint map in which every hint of the sequence is found under its textual
rendering. -/
theorem build_hints_dict_spec {H P : Type} (fmt : H → String) (toParams : H → P)
    (instrs : List (Instruction H))
    (hop : ∀ i ∈ instrs, 0 < i.op_size) (hfmt : Function.Injective fmt) :
    (∀ (o : Nat) (ps : List P),
      (o, ps) ∈ (build_hints_dict fmt toParams instrs).1 ↔
        ∃ pre instr post, instrs = pre ++ instr :: post ∧
          o = ((pre.map Instruction.op_size).sum) ∧ instr.hints ≠ [] ∧
          ps = instr.hints.map toParams) ∧
    (∀ instr ∈ instrs, ∀ h ∈ instr.hints,
      mapFind (build_hints_dict fmt toParams instrs).2 (fmt h) = some h) := by
  have h1 : (build_hints_dict fmt toParams instrs).1 = hintEntries toParams 0 instrs := by
    rw [build_hints_dict,
      build_loop_fst fmt toParams instrs 0 [] [] hop (by intro kv hkv; simp at hkv)]
    rfl
  have h2 : (build_hints_dict fmt toParams instrs).2 =
      ((instrs.map Instruction.hints).flatten).foldl
        (fun m h => mapInsert m (fmt h) h) [] := by
    rw [build_hints_dict, build_loop_snd]
  constructor
  · intro o ps
    rw [h1, hintEntries_mem]
    constructor
    · rintro ⟨pre, i, post, hd, ho, hne, hps⟩
      exact ⟨pre, i, post, hd, by rw [ho]; exact Nat.zero_add _, hne, hps⟩
    · rintro ⟨pre, i, post, hd, ho, hne, hps⟩
      exact ⟨pre, i, post, hd, by rw [ho]; exact (Nat.zero_add _).symm, hne, hps⟩
  · intro i hi h hh
    rw [h2]
    exact mapFind_foldl_mem fmt hfmt _ [] h
      (List.mem_flatten.mpr ⟨i.hints, List.mem_map.mpr ⟨i, hi, rfl⟩, hh⟩)

/-- C7 witness: on `demoInstructions` the table has the entry for the hint-carrying
instruction at cumulative offset 3, and the string map finds the hint rendered from
code 5. -/
theorem build_hints_dict_spec_witness :
    ((3 : Nat), [({ code := 7 } : HintParams)]) ∈
      (build_hints_dict Hint.render hint_to_hint_params demoInstructions).1 ∧
    mapFind (build_hints_dict Hint.render hint_to_hint_params demoInstructions).2
      (Hint.render { code := 5 }) = some { code := 5 } := by
  have hs := build_hints_dict_spec Hint.render hint_to_hint_params demoInstructions
    (by decide) Hint.render_inj
  refine ⟨(hs.1 3 [{ code := 7 }]).mpr ?_,
    hs.2 { hints := [{ code := 5 }], op_size := 2 } (by decide) { code := 5 } (by decide)⟩
  exact ⟨[{ hints := [{ code := 5 }], op_size := 2 }, { hints := [], op_size := 1 }],
    { hints := [{ code := 7 }], op_size := 1 }, [], rfl, by decide, by decide, rfl⟩
